import Mathlib

/-!
Verification of the relay supervision engine of `restreamer_monitor_go`
(`relay/relay.go`, with configuration types from the `monitor` package and
room-identifier validation from `service/bilibili.go`).

Modelling conventions:
* Go maps are embedded as association lists.  For `Destination.Options` the
  list records the enumeration order that `range` produces on the map; Go
  leaves that order unspecified, so two observations of the same map value
  are related by `List.Perm`, not by equality.
* The `processes` map of a `StreamRelay` is embedded as the list of its keys
  (destination names); the `*exec.Cmd` values carry no information the
  claims need beyond being killable.
* State-changing operations of a relay (`Start`-loop iterations, `Stop`)
  are modelled as atomic steps on an explicit state record: in the source
  these critical sections are serialized by the relay's mutex.
* Errors (`error` values) are embedded as `Except String` / `Option String`
  carrying the formatted message produced by `fmt.Errorf`.
-/

/-- `monitor.Destination`: one destination stream configuration.
`options` is the enumeration of the Go map `Options` in the order `range`
happens to produce. -/
structure Destination where
  name : String
  url : String
  protocol : String
  options : List (String × String)
deriving Repr, DecidableEq

/-- `monitor.Source`: the source stream configuration. -/
structure Source where
  platform : String
  roomID : String
deriving Repr, DecidableEq

/-- `monitor.RelayConfig`: one relay configuration. -/
structure RelayConfig where
  name : String
  source : Source
  destinations : List Destination
  enabled : Bool
  quality : String
deriving Repr, DecidableEq

/-- `monitor.RoomConfig`: one monitored-room configuration. -/
structure RoomConfig where
  platform : String
  roomID : String
  enabled : Bool
deriving Repr, DecidableEq

/-- `monitor.Config`: the application configuration (the Telegram section is
omitted: the relay engine never reads it). -/
structure Config where
  rooms : List RoomConfig
  relays : List RelayConfig
  interval : String
  verbose : Bool
deriving Repr, DecidableEq

/-- `relay.StreamRelay`: the runtime state of one relay.  `processes` is the
key set of the `processes` map; `cancelled` records whether the relay's
private context has been cancelled; `startTime` is an abstract clock
reading. -/
structure StreamRelay where
  config : RelayConfig
  processes : List String
  isRunning : Bool
  lastError : Option String
  startTime : Nat
  restartCount : Nat
  cancelled : Bool
deriving Repr, DecidableEq

/-- `relay.RelayStatus`: the status snapshot returned by `GetStatus`. -/
structure RelayStatus where
  name : String
  isRunning : Bool
  startTime : Nat
  lastError : Option String
  restartCount : Nat
  processCount : Nat
deriving Repr, DecidableEq

/-- `StreamRelay.GetStatus`: read-only snapshot of the relay state. -/
def StreamRelay.GetStatus (sr : StreamRelay) : RelayStatus :=
  { name := sr.config.name
    isRunning := sr.isRunning
    startTime := sr.startTime
    lastError := sr.lastError
    restartCount := sr.restartCount
    processCount := sr.processes.length }

/-- `StreamRelay.buildFFmpegArgs`: builds the external-transcoder argument
list, translated line by line from the Go function (fixed input/copy/format
arguments, then the `Quality` switch, then one flag/value pair per `Options`
entry in enumeration order, then the destination URL). -/
def StreamRelay.buildFFmpegArgs (sr : StreamRelay) (sourceURL : String)
    (dest : Destination) : List String :=
  let args := ["-i", sourceURL, "-c", "copy", "-f", "flv"]
  let args := args ++
    (if sr.config.quality ≠ "" then
      match sr.config.quality with
      | "best" => []
      | "worst" => ["-b:v", "500k"]
      | "720p" => ["-s", "1280x720", "-b:v", "2000k"]
      | "480p" => ["-s", "854x480", "-b:v", "1000k"]
      | _ => []
    else [])
  let args := dest.options.foldl (fun a kv => a ++ ["-" ++ kv.1, kv.2]) args
  args ++ [dest.url]

/-- The arguments contributed by the `Quality` switch alone. -/
def qualityArgs (quality : String) : List String :=
  if quality ≠ "" then
    match quality with
    | "best" => []
    | "worst" => ["-b:v", "500k"]
    | "720p" => ["-s", "1280x720", "-b:v", "2000k"]
    | "480p" => ["-s", "854x480", "-b:v", "1000k"]
    | _ => []
  else []

/-- The arguments contributed by the destination `Options` loop alone. -/
def optionArgs (options : List (String × String)) : List String :=
  options.flatMap (fun kv => ["-" ++ kv.1, kv.2])

/-- One observation of the stream source in one supervision-loop pass:
the value `source.GetStatus()` returned and the value `source.GetPlayURL()`
would return. -/
structure SourceObs where
  live : Bool
  playURL : String
deriving Repr, DecidableEq

/-- The error message `runRelay` builds for a failed destination
(`fmt.Errorf("destination %s failed: %w", dest.Name, err)`). -/
def destFailMsg (destName : String) (e : String) : String :=
  "destination " ++ destName ++ " failed: " ++ e

/-- The set of error messages the destination goroutines of one cycle send
on `errChan`, given each destination's outcome (`none` = its process ran to
completion, `some e` = `startRelayProcess` returned the error `e`). -/
def cycleErrors (dests : List Destination) (outcome : String → Option String) :
    List String :=
  dests.filterMap (fun d => (outcome d.name).map (destFailMsg d.name))

/-- The first value received from `errChan`: one of the sent errors if any
destination failed (which one depends on goroutine scheduling), `nil` if the
channel was closed with nothing sent. -/
def firstErrValid (dests : List Destination) (outcome : String → Option String) :
    Option String → Prop
  | none => cycleErrors dests outcome = []
  | some e => e ∈ cycleErrors dests outcome

/-- The contents of the `processes` map after every destination goroutine of
the cycle has registered its command (`sr.processes[dest.Name] = cmd`). -/
def trackProcesses (procs : List String) (dests : List Destination) :
    List String :=
  dests.foldl (fun m d => if d.name ∈ m then m else m ++ [d.name]) procs

/-- Result of one `runRelay` call: the relay state it leaves behind, the
error it returns, whether destination processes were launched this cycle,
and which tracked processes were killed by `stopAllProcesses`. -/
structure CycleResult where
  state : StreamRelay
  err : Option String
  launched : Bool
  killed : List String
deriving Repr, DecidableEq

/-- `StreamRelay.runRelay`, one cycle: if the source is not live, sleep the
poll interval and return `nil`; if `GetPlayURL()` is empty, return the
resolution error; otherwise launch one process per destination, wait for the
first `errChan` value, kill and clear every tracked process, and return that
value.  `obs` is what the source reported this pass and `firstErr` the first
value received from `errChan` (constrained by `firstErrValid` in the
theorems). -/
def StreamRelay.runRelay (sr : StreamRelay) (obs : SourceObs)
    (firstErr : Option String) : CycleResult :=
  if ¬ obs.live then ⟨sr, none, false, []⟩
  else if obs.playURL = "" then
    ⟨sr, some "failed to get source stream URL", false, []⟩
  else
    let tracked := trackProcesses sr.processes sr.config.destinations
    ⟨{ sr with processes := [] }, firstErr, true, tracked⟩

/-- Result of one pass of the `Start` loop. -/
structure IterResult where
  state : StreamRelay
  backoff : Bool
  launched : Bool
  killed : List String
deriving Repr, DecidableEq

/-- One pass of the `for` loop in `StreamRelay.Start`: exit if the relay's
context is done; otherwise run one cycle, and on a non-nil error record it
in `lastError`, increment `restartCount` and enter the fixed 5-second
backoff. -/
def StreamRelay.startIteration (sr : StreamRelay) (obs : SourceObs)
    (firstErr : Option String) : IterResult :=
  if sr.cancelled then ⟨sr, false, false, []⟩
  else
    let r := sr.runRelay obs firstErr
    match r.err with
    | none => ⟨r.state, false, r.launched, r.killed⟩
    | some e =>
        ⟨{ r.state with lastError := some e,
                        restartCount := r.state.restartCount + 1 },
         true, r.launched, r.killed⟩

/-- The entry of `StreamRelay.Start` before the loop: a no-op on an
already-running relay, otherwise records the start time and sets the
running flag. -/
def StreamRelay.Start (sr : StreamRelay) (now : Nat) : StreamRelay :=
  if sr.isRunning then sr
  else { sr with isRunning := true, startTime := now }

/-- `StreamRelay.Stop`: a no-op on a relay that is not running; otherwise
clears the running flag, cancels the relay's private context, kills every
tracked process and clears the map.  Returns the new state and the list of
processes that were killed. -/
def StreamRelay.Stop (sr : StreamRelay) : StreamRelay × List String :=
  if ¬ sr.isRunning then (sr, [])
  else ({ sr with isRunning := false, cancelled := true, processes := [] },
        sr.processes)

/-- The operations that touch a relay's state over its lifetime. -/
inductive RelayOp where
  | start (now : Nat)
  | iterate (obs : SourceObs) (firstErr : Option String)
  | stop
  | getStatus
deriving Repr, DecidableEq

/-- Apply one operation to the relay state (`GetStatus` only reads). -/
def StreamRelay.applyOp (sr : StreamRelay) : RelayOp → StreamRelay
  | .start now => sr.Start now
  | .iterate obs firstErr => (sr.startIteration obs firstErr).state
  | .stop => sr.Stop.1
  | .getStatus => sr

/-- Apply a whole sequence of operations. -/
def StreamRelay.runOps (sr : StreamRelay) (ops : List RelayOp) : StreamRelay :=
  ops.foldl StreamRelay.applyOp sr

/-- Iterate the `Start` loop over a trace of source observations and
first-error selections. -/
def StreamRelay.runIters (sr : StreamRelay) :
    List (SourceObs × Option String) → StreamRelay
  | [] => sr
  | (obs, firstErr) :: rest =>
      ((sr.startIteration obs firstErr).state).runIters rest

/-- Whether any pass of the `Start` loop over the trace launched destination
processes. -/
def StreamRelay.itersLaunched (sr : StreamRelay) :
    List (SourceObs × Option String) → Bool
  | [] => false
  | (obs, firstErr) :: rest =>
      let r := sr.startIteration obs firstErr
      r.launched || r.state.itersLaunched rest

/-- `service.validateRoomID`: a room identifier must be non-empty, all ASCII
digits, and at most 20 bytes (digits are single-byte, so the byte length of
a string that passed the digit check equals its character count). -/
def validateRoomID (roomID : String) : Except String Unit :=
  if roomID = "" then .error "room ID cannot be empty"
  else if ¬ (roomID.data.all fun c => c.isDigit) then
    .error "room ID must contain only digits"
  else if roomID.length > 20 then .error "room ID is too long"
  else .ok ()

/-- `monitor.NewBilibiliStreamSource` via `service.NewBilibiliService`: the
only failure is room-identifier validation (the HTTP client construction
cannot fail). -/
def NewBilibiliStreamSource (roomID : String) : Except String Unit :=
  match validateRoomID roomID with
  | .error e => .error ("invalid room ID: " ++ e)
  | .ok _ => .ok ()

/-- `relay.NewStreamRelay`: build the stream source for the configured
platform (only `"bilibili"` is supported) and return the fresh relay
state. -/
def NewStreamRelay (cfg : RelayConfig) : Except String StreamRelay :=
  match cfg.source.platform with
  | "bilibili" =>
      match NewBilibiliStreamSource cfg.source.roomID with
      | .error e => .error ("failed to create stream source: " ++ e)
      | .ok _ =>
          .ok { config := cfg
                processes := []
                isRunning := false
                lastError := none
                startTime := 0
                restartCount := 0
                cancelled := false }
  | p => .error ("unsupported platform: " ++ p)

/-- `relay.RelayManager`: the manager's mutable state (its relay map as an
association list and its cancellation scope). -/
structure RelayManager where
  relays : List (String × StreamRelay)
  cancelled : Bool
deriving Repr, DecidableEq

/-- Go map assignment `manager.relays[name] = relay`: overwrite an existing
key, otherwise add the entry. -/
def insertRelay (m : List (String × StreamRelay)) (k : String)
    (v : StreamRelay) : List (String × StreamRelay) :=
  if m.any (fun p => p.1 = k) then
    m.map (fun p => if p.1 = k then (k, v) else p)
  else m ++ [(k, v)]

/-- The body of the relay-construction loop in `NewRelayManager`: skip a
disabled definition, skip (after logging) a definition whose
`NewStreamRelay` fails, otherwise store the relay under its name. -/
def buildStep (m : List (String × StreamRelay)) (rc : RelayConfig) :
    List (String × StreamRelay) :=
  if ¬ rc.enabled then m
  else
    match NewStreamRelay rc with
    | .error _ => m
    | .ok sr => insertRelay m rc.name sr

/-- The relay map `NewRelayManager` builds from the configured relay
definitions. -/
def buildRelays (defs : List RelayConfig) : List (String × StreamRelay) :=
  defs.foldl buildStep []

/-- The manager state `NewRelayManager` returns for a loaded
configuration. -/
def NewRelayManagerOfConfig (config : Config) : RelayManager :=
  { relays := buildRelays config.relays, cancelled := false }

/-- What `os.ReadFile` can report for the configuration path. -/
inductive FileRead where
  | notFound
  | readErr (msg : String)
  | content (data : String)
deriving Repr, DecidableEq

/-- The defaults `loadConfig` fills in before reading any file. -/
def defaultConfig : Config :=
  { rooms := [], relays := [], interval := "30s", verbose := false }

/-- `relay.loadConfig`: an empty path or a missing file yields the default
configuration with a nil error; a read failure is returned as is; file
contents go through `json.Unmarshal` into the defaulted struct, abstracted
here as the `parseConfig` argument. -/
def loadConfig (fs : String → FileRead)
    (parseConfig : String → Except String Config)
    (configFile : String) : Except String Config :=
  if configFile = "" then .ok defaultConfig
  else
    match fs configFile with
    | .notFound => .ok defaultConfig
    | .readErr e => .error e
    | .content data =>
        match parseConfig data with
        | .error e => .error ("failed to parse config file: " ++ e)
        | .ok c => .ok c

/-- `relay.NewRelayManager`: load the configuration and build the relay
map. -/
def NewRelayManager (fs : String → FileRead)
    (parseConfig : String → Except String Config)
    (configFile : String) : Except String RelayManager :=
  match loadConfig fs parseConfig configFile with
  | .error e => .error ("failed to load config: " ++ e)
  | .ok config => .ok (NewRelayManagerOfConfig config)

/-- `RelayManager.Stop`: request `Stop()` on every owned relay and cancel
the shared scope. -/
def RelayManager.Stop (rm : RelayManager) : RelayManager :=
  { relays := rm.relays.map (fun p => (p.1, p.2.Stop.1)), cancelled := true }

instance {ε α : Type} [DecidableEq ε] [DecidableEq α] :
    DecidableEq (Except ε α) := fun a b =>
  match a, b with
  | .ok a, .ok b =>
      if h : a = b then isTrue (by rw [h])
      else isFalse (fun hc => h (Except.ok.inj hc))
  | .error e, .error f =>
      if h : e = f then isTrue (by rw [h])
      else isFalse (fun hc => h (Except.error.inj hc))
  | .ok _, .error _ => isFalse (fun hc => Except.noConfusion hc)
  | .error _, .ok _ => isFalse (fun hc => Except.noConfusion hc)

/-- Result of `RelayManager.Run`: the manager state when `Run` returns, how
many per-relay supervision goroutines it launched, and its return value. -/
structure RunResult where
  manager : RelayManager
  tasksLaunched : Nat
  result : Except String Unit
deriving Repr, DecidableEq

/-- `RelayManager.Run`: fail at once, launching nothing and changing
nothing, when the relay map is empty; otherwise launch one supervision
goroutine per relay, block until the manager's context is cancelled, stop
everything and return `nil`. -/
def RelayManager.Run (rm : RelayManager) : RunResult :=
  if rm.relays.length = 0 then
    ⟨rm, 0, .error "no relay configurations found"⟩
  else ⟨rm.Stop, rm.relays.length, .ok ()⟩

/-- The destination of the spec's example scenario. -/
def demoDest : Destination :=
  { name := "a", url := "rtmp://x/a", protocol := "rtmp",
    options := [("bufsize", "3000k")] }

/-- A second destination with no custom options. -/
def demoDestB : Destination :=
  { name := "b", url := "rtmp://y/b", protocol := "rtmp", options := [] }

/-- The relay definition of the spec's example scenario. -/
def demoConfig : RelayConfig :=
  { name := "demo", source := { platform := "bilibili", roomID := "123" },
    destinations := [demoDest], enabled := true, quality := "720p" }

/-- A relay definition with two destinations. -/
def demoConfigTwo : RelayConfig :=
  { name := "demo2", source := { platform := "bilibili", roomID := "123" },
    destinations := [demoDest, demoDestB], enabled := true,
    quality := "720p" }

/-- A relay definition whose source platform is not supported. -/
def badPlatformConfig : RelayConfig :=
  { name := "bad", source := { platform := "twitch", roomID := "123" },
    destinations := [], enabled := true, quality := "" }

/-- A freshly constructed, never-started relay. -/
def demoIdleRelay : StreamRelay :=
  { config := demoConfig, processes := [], isRunning := false,
    lastError := none, startTime := 0, restartCount := 0, cancelled := false }

/-- A started relay about to run its first cycle. -/
def demoRunningRelay : StreamRelay :=
  { config := demoConfig, processes := [], isRunning := true,
    lastError := none, startTime := 0, restartCount := 0, cancelled := false }

/-- A started two-destination relay about to run its first cycle. -/
def demoRunningRelayTwo : StreamRelay :=
  { config := demoConfigTwo, processes := [], isRunning := true,
    lastError := none, startTime := 0, restartCount := 0, cancelled := false }

/-- A relay mid-`Streaming` with a tracked destination process. -/
def demoStreamingRelay : StreamRelay :=
  { config := demoConfig, processes := ["a"], isRunning := true,
    lastError := none, startTime := 0, restartCount := 0, cancelled := false }

/-- Destination outcomes of a cycle where destination `"a"` fails and every
other destination succeeds. -/
def demoOutcome : String → Option String :=
  fun n => if n = "a" then some "ffmpeg process failed: exit status 1"
           else none

/-- A file system with no files at all. -/
def emptyFS : String → FileRead := fun _ => FileRead.notFound

/-- A stand-in JSON decoder for paths where no file is ever read. -/
def noParse : String → Except String Config := fun _ => .error "unused"

lemma foldl_append_pairs (options : List (String × String)) :
    ∀ a : List String,
      options.foldl (fun a kv => a ++ ["-" ++ kv.1, kv.2]) a
        = a ++ optionArgs options := by
  induction options with
  | nil => intro a; simp [optionArgs]
  | cons kv rest ih =>
      intro a
      simp only [List.foldl_cons, ih, optionArgs, List.flatMap_cons,
        List.append_assoc]

/-- Decomposition of `buildFFmpegArgs` into its four ordered segments. -/
lemma buildFFmpegArgs_eq (sr : StreamRelay) (sourceURL : String)
    (dest : Destination) :
    sr.buildFFmpegArgs sourceURL dest =
      ["-i", sourceURL, "-c", "copy", "-f", "flv"]
        ++ qualityArgs sr.config.quality ++ optionArgs dest.options
        ++ [dest.url] := by
  simp only [StreamRelay.buildFFmpegArgs, qualityArgs, foldl_append_pairs,
    List.append_assoc]

lemma trackProcesses_cons (procs : List String) (d : Destination)
    (rest : List Destination) :
    trackProcesses procs (d :: rest)
      = trackProcesses (if d.name ∈ procs then procs else procs ++ [d.name])
          rest := rfl

lemma mem_trackProcesses_of_mem (x : String) (dests : List Destination) :
    ∀ procs : List String, x ∈ procs → x ∈ trackProcesses procs dests := by
  induction dests with
  | nil => intro procs h; exact h
  | cons d rest ih =>
      intro procs h
      rw [trackProcesses_cons]
      apply ih
      split
      · exact h
      · exact List.mem_append_left _ h

lemma name_mem_trackProcesses (dests : List Destination) (d : Destination)
    (hd : d ∈ dests) :
    ∀ procs : List String, d.name ∈ trackProcesses procs dests := by
  induction dests with
  | nil => cases hd
  | cons d0 rest ih =>
      intro procs
      rw [trackProcesses_cons]
      rcases List.mem_cons.mp hd with h | h
      · subst h
        apply mem_trackProcesses_of_mem
        split
        · assumption
        · exact List.mem_append_right _ (List.mem_singleton_self _)
      · exact ih h _

lemma insertRelay_keys (m : List (String × StreamRelay)) (k : String)
    (v : StreamRelay) (x : String)
    (hx : x ∈ (insertRelay m k v).map Prod.fst) :
    x ∈ m.map Prod.fst ∨ x = k := by
  unfold insertRelay at hx
  split at hx
  · rw [List.map_map] at hx
    rcases List.mem_map.mp hx with ⟨q, hq, he⟩
    by_cases hqk : q.1 = k
    · right
      rw [← he]
      simp [Function.comp, hqk]
    · left
      refine List.mem_map.mpr ⟨q, hq, ?_⟩
      rw [← he]
      simp [Function.comp, hqk]
  · rw [List.map_append] at hx
    rcases List.mem_append.mp hx with h | h
    · exact Or.inl h
    · exact Or.inr (List.mem_singleton.mp h)

lemma buildStep_skip (m : List (String × StreamRelay)) (bad : RelayConfig)
    (hbad : bad.enabled = false ∨ ∃ e, NewStreamRelay bad = .error e) :
    buildStep m bad = m := by
  rcases hbad with h | ⟨e, h⟩
  · simp [buildStep, h]
  · unfold buildStep
    split
    · rfl
    · rw [h]

lemma buildRelays_go_keys (defs : List RelayConfig) :
    ∀ (m : List (String × StreamRelay)) (x : String),
      x ∈ ((defs.foldl buildStep m).map Prod.fst) →
      x ∈ m.map Prod.fst ∨ ∃ rc ∈ defs, rc.name = x ∧ rc.enabled = true := by
  induction defs with
  | nil => intro m x hx; exact Or.inl hx
  | cons rc rest ih =>
      intro m x hx
      rw [List.foldl_cons] at hx
      rcases ih (buildStep m rc) x hx with h | ⟨rc', hmem, hn, he⟩
      · by_cases hen : rc.enabled
        · unfold buildStep at h
          rw [if_neg (by simp [hen])] at h
          rcases hok : NewStreamRelay rc with e | sr
          · rw [hok] at h
            exact Or.inl h
          · rw [hok] at h
            rcases insertRelay_keys m rc.name sr x h with h' | h'
            · exact Or.inl h'
            · exact Or.inr ⟨rc, List.mem_cons_self rc rest, h'.symm, hen⟩
        · unfold buildStep at h
          rw [if_pos (by simp [hen])] at h
          exact Or.inl h
      · exact Or.inr ⟨rc', List.mem_cons_of_mem rc hmem, hn, he⟩

lemma startIteration_notLive (sr : StreamRelay) (obs : SourceObs)
    (firstErr : Option String) (h : obs.live = false) :
    sr.startIteration obs firstErr = ⟨sr, false, false, []⟩ := by
  by_cases hc : sr.cancelled
  · simp [StreamRelay.startIteration, hc]
  · simp [StreamRelay.startIteration, StreamRelay.runRelay, hc, h]

lemma applyOp_restartCount_le (sr : StreamRelay) (op : RelayOp) :
    sr.restartCount ≤ (sr.applyOp op).restartCount := by
  cases op with
  | start now =>
      simp only [StreamRelay.applyOp, StreamRelay.Start]
      split <;> exact le_rfl
  | iterate obs firstErr =>
      by_cases hc : sr.cancelled
      · simp [StreamRelay.applyOp, StreamRelay.startIteration, hc]
      · by_cases hl : obs.live
        · by_cases hu : obs.playURL = ""
          · simp [StreamRelay.applyOp, StreamRelay.startIteration,
              StreamRelay.runRelay, hc, hl, hu]
          · cases firstErr with
            | none =>
                simp [StreamRelay.applyOp, StreamRelay.startIteration,
                  StreamRelay.runRelay, hc, hl, hu]
            | some e =>
                simp [StreamRelay.applyOp, StreamRelay.startIteration,
                  StreamRelay.runRelay, hc, hl, hu]
        · simp [StreamRelay.applyOp, startIteration_notLive sr obs firstErr
            (by simpa using hl)]
  | stop =>
      simp only [StreamRelay.applyOp, StreamRelay.Stop]
      split <;> exact le_rfl
  | getStatus => exact le_rfl

/-- Claim C1, counterexample: on a started relay whose source is live but
whose `GetPlayURL()` comes back empty, one pass of the supervision loop
DOES increment `restartCount` (from 0 to 1) and DOES enter the fixed
backoff delay — `Start` treats the URL-resolution error exactly like a
destination failure, contradicting the claimed transient/asymmetric
policy. -/
theorem urlFailure_counted_and_backoff :
    (demoRunningRelay.startIteration ⟨true, ""⟩ none).state.restartCount = 1 ∧
    demoRunningRelay.restartCount = 0 ∧
    (demoRunningRelay.startIteration ⟨true, ""⟩ none).backoff = true := by
  decide

/-- Claim C1 (amended): when the source reports live but URL resolution
fails, `lastError` is set to the resolution error, `restartCount` IS
incremented by exactly 1, and the relay re-enters liveness polling only
after the fixed backoff delay; no destination process is launched and the
process map is untouched. -/
theorem urlResolutionFailure_semantics (sr : StreamRelay) (obs : SourceObs)
    (firstErr : Option String) (hc : sr.cancelled = false)
    (hl : obs.live = true) (hu : obs.playURL = "") :
    (sr.startIteration obs firstErr).state.lastError
        = some "failed to get source stream URL" ∧
    (sr.startIteration obs firstErr).state.restartCount
        = sr.restartCount + 1 ∧
    (sr.startIteration obs firstErr).backoff = true ∧
    (sr.startIteration obs firstErr).launched = false ∧
    (sr.startIteration obs firstErr).state.processes = sr.processes ∧
    (sr.startIteration obs firstErr).state.isRunning = sr.isRunning := by
  simp [StreamRelay.startIteration, StreamRelay.runRelay, hc, hl, hu]

theorem urlResolutionFailure_semantics_witness :
    demoRunningRelay.cancelled = false ∧
    (demoRunningRelay.startIteration ⟨true, ""⟩ none).state.lastError
        = some "failed to get source stream URL" :=
  ⟨rfl,
   (urlResolutionFailure_semantics demoRunningRelay ⟨true, ""⟩ none rfl rfl
      rfl).1⟩

/-- Claim C2: in a streaming cycle with at least two destinations, when the
first destination error arrives, every destination process of the cycle is
in the killed set, the process map is cleared, `lastError` is set to that
error, `restartCount` goes up by exactly 1, and the relay enters the fixed
backoff before polling again. -/
theorem destinationFailure_semantics (sr : StreamRelay) (obs : SourceObs)
    (outcome : String → Option String) (e : String)
    (hc : sr.cancelled = false) (hl : obs.live = true)
    (hu : obs.playURL ≠ "") (_hn : 2 ≤ sr.config.destinations.length)
    (_he : e ∈ cycleErrors sr.config.destinations outcome) :
    (∀ d ∈ sr.config.destinations,
        d.name ∈ (sr.startIteration obs (some e)).killed) ∧
    (sr.startIteration obs (some e)).state.processes = [] ∧
    (sr.startIteration obs (some e)).state.lastError = some e ∧
    (sr.startIteration obs (some e)).state.restartCount
        = sr.restartCount + 1 ∧
    (sr.startIteration obs (some e)).backoff = true := by
  have hstep : sr.startIteration obs (some e)
      = ⟨{ sr with processes := [], lastError := some e,
                   restartCount := sr.restartCount + 1 },
         true, true, trackProcesses sr.processes sr.config.destinations⟩ := by
    simp [StreamRelay.startIteration, StreamRelay.runRelay, hc, hl, hu]
  rw [hstep]
  refine ⟨?_, rfl, rfl, rfl, rfl⟩
  intro d hd
  exact name_mem_trackProcesses sr.config.destinations d hd sr.processes

theorem destinationFailure_semantics_witness :
    2 ≤ demoRunningRelayTwo.config.destinations.length ∧
    "destination a failed: ffmpeg process failed: exit status 1"
        ∈ cycleErrors demoRunningRelayTwo.config.destinations demoOutcome ∧
    (demoRunningRelayTwo.startIteration ⟨true, "http://src/index.m3u8"⟩
        (some "destination a failed: ffmpeg process failed: exit status 1")
      ).state.restartCount = demoRunningRelayTwo.restartCount + 1 :=
  ⟨by decide, by decide,
   (destinationFailure_semantics demoRunningRelayTwo
      ⟨true, "http://src/index.m3u8"⟩ demoOutcome
      "destination a failed: ffmpeg process failed: exit status 1"
      rfl rfl (by decide) (by decide) (by decide)).2.2.2.1⟩

/-- Claim C3: `buildFFmpegArgs` always produces the fixed input/copy/
container arguments, then the quality flags ("720p" yields `-s 1280x720
-b:v 2000k`, "480p" yields `-s 854x480 -b:v 1000k`, "worst" yields `-b:v
500k`, "best" yields nothing), then one flag/value pair per destination
option, and the destination URL is the single final argument; in
particular the spec's 720p example produces exactly the expected
sequence. -/
theorem buildFFmpegArgs_ordering (sr : StreamRelay) (sourceURL : String)
    (dest : Destination) :
    sr.buildFFmpegArgs sourceURL dest =
      ["-i", sourceURL, "-c", "copy", "-f", "flv"]
        ++ qualityArgs sr.config.quality
        ++ dest.options.flatMap (fun kv => ["-" ++ kv.1, kv.2])
        ++ [dest.url] ∧
    qualityArgs "720p" = ["-s", "1280x720", "-b:v", "2000k"] ∧
    qualityArgs "480p" = ["-s", "854x480", "-b:v", "1000k"] ∧
    qualityArgs "worst" = ["-b:v", "500k"] ∧
    qualityArgs "best" = [] ∧
    (sr.buildFFmpegArgs sourceURL dest).getLast? = some dest.url ∧
    demoRunningRelay.buildFFmpegArgs "http://src/index.m3u8" demoDest
      = ["-i", "http://src/index.m3u8", "-c", "copy", "-f", "flv",
         "-s", "1280x720", "-b:v", "2000k", "-bufsize", "3000k",
         "rtmp://x/a"] := by
  refine ⟨by rw [buildFFmpegArgs_eq]; rfl, rfl, rfl, rfl, rfl, ?_, by decide⟩
  rw [buildFFmpegArgs_eq, List.getLast?_append_cons]
  rfl

/-- Claim C9, counterexample: the Go `range` enumeration order of a map is
unspecified, so two calls of `buildFFmpegArgs` on the same resolved URL,
quality and destination map value — a two-entry options map observed in the
two orders `range` may produce — return different argument sequences.  The
two option lists below are permutations of each other with distinct keys,
i.e. enumerations of one and the same map. -/
theorem buildFFmpegArgs_enumeration_dependent :
    List.Perm
        ([("bufsize", "3000k"), ("maxrate", "2500k")] :
          List (String × String))
        [("maxrate", "2500k"), ("bufsize", "3000k")] ∧
    (["bufsize", "maxrate"] : List String).Nodup ∧
    demoRunningRelay.buildFFmpegArgs "http://src/index.m3u8"
        { name := "a", url := "rtmp://x/a", protocol := "rtmp",
          options := [("bufsize", "3000k"), ("maxrate", "2500k")] }
      ≠ demoRunningRelay.buildFFmpegArgs "http://src/index.m3u8"
        { name := "a", url := "rtmp://x/a", protocol := "rtmp",
          options := [("maxrate", "2500k"), ("bufsize", "3000k")] } := by
  refine ⟨List.Perm.swap _ _ _, by decide, by decide⟩

/-- Claim C9 (amended): `buildFFmpegArgs` is a pure function of the resolved
URL, the quality and the destination *including the enumeration order of its
options map*: identical inputs with the same enumeration give identical
sequences; two enumerations of the same map give sequences equal up to a
permutation of the option flag/value pairs; and an empty options map
contributes no extra option flags. -/
theorem buildFFmpegArgs_pure_up_to_enumeration (sr : StreamRelay)
    (sourceURL : String) (d1 d2 : Destination) (hurl : d1.url = d2.url)
    (hopt : List.Perm d1.options d2.options) :
    List.Perm (sr.buildFFmpegArgs sourceURL d1)
        (sr.buildFFmpegArgs sourceURL d2) ∧
    (d1.options = d2.options →
      sr.buildFFmpegArgs sourceURL d1 = sr.buildFFmpegArgs sourceURL d2) ∧
    (d1.options = [] →
      sr.buildFFmpegArgs sourceURL d1 =
        ["-i", sourceURL, "-c", "copy", "-f", "flv"]
          ++ qualityArgs sr.config.quality ++ [d1.url]) := by
  refine ⟨?_, ?_, ?_⟩
  · rw [buildFFmpegArgs_eq, buildFFmpegArgs_eq, hurl]
    refine List.Perm.append ?_ (List.Perm.refl _)
    refine List.Perm.append_left _ ?_
    simpa [optionArgs] using
      hopt.flatMap_right (fun kv => ["-" ++ kv.1, kv.2])
  · intro h
    rw [buildFFmpegArgs_eq, buildFFmpegArgs_eq, hurl, h]
  · intro h
    rw [buildFFmpegArgs_eq, h]
    simp [optionArgs]

theorem buildFFmpegArgs_pure_up_to_enumeration_witness :
    demoDest.url = demoDest.url ∧
    List.Perm demoDest.options demoDest.options ∧
    demoRunningRelay.buildFFmpegArgs "http://src/index.m3u8" demoDest
      = demoRunningRelay.buildFFmpegArgs "http://src/index.m3u8" demoDest :=
  ⟨rfl, List.Perm.refl _,
   (buildFFmpegArgs_pure_up_to_enumeration demoRunningRelay
      "http://src/index.m3u8" demoDest demoDest rfl
      (List.Perm.refl _)).2.1 rfl⟩

/-- Claim C4: `RelayManager.Run` on an empty relay set fails immediately
with the "no relay configurations found" error, launches zero per-relay
supervision goroutines and leaves the manager state untouched; on a
non-empty relay set it never returns that (or any) error. -/
theorem run_no_relays (rm : RelayManager) :
    (rm.relays = [] →
      rm.Run = ⟨rm, 0, .error "no relay configurations found"⟩) ∧
    (rm.relays ≠ [] → rm.Run.result = .ok ()) := by
  constructor
  · intro h
    simp [RelayManager.Run, h]
  · intro h
    simp [RelayManager.Run, List.length_eq_zero, h]

theorem run_no_relays_witness :
    (⟨[], false⟩ : RelayManager).Run
      = ⟨⟨[], false⟩, 0, .error "no relay configurations found"⟩ ∧
    (⟨[("demo", demoIdleRelay)], false⟩ : RelayManager).Run.result
      = .ok () :=
  ⟨(run_no_relays ⟨[], false⟩).1 rfl,
   (run_no_relays ⟨[("demo", demoIdleRelay)], false⟩).2
     (List.cons_ne_nil _ _)⟩

/-- Claim C5: every key of the relay map built by `NewRelayManager` comes
from an enabled relay definition (a disabled definition never produces a
StreamRelay), and a definition that is disabled or whose `NewStreamRelay`
fails is skipped: removing it from the definition list leaves the
constructed relay map unchanged, so it aborts neither the remaining relays
nor the manager. -/
theorem manager_enabled_invariant (config : Config)
    (l1 l2 : List RelayConfig) (bad : RelayConfig)
    (hbad : bad.enabled = false ∨ ∃ e, NewStreamRelay bad = .error e) :
    (∀ k ∈ (NewRelayManagerOfConfig config).relays.map Prod.fst,
        ∃ rc ∈ config.relays, rc.name = k ∧ rc.enabled = true) ∧
    buildRelays (l1 ++ bad :: l2) = buildRelays (l1 ++ l2) := by
  constructor
  · intro k hk
    rcases buildRelays_go_keys config.relays [] k hk with h | h
    · cases h
    · exact h
  · unfold buildRelays
    rw [List.foldl_append, List.foldl_append, List.foldl_cons,
      buildStep_skip _ bad hbad]

theorem manager_enabled_invariant_witness :
    (badPlatformConfig.enabled = false ∨
      ∃ e, NewStreamRelay badPlatformConfig = .error e) ∧
    buildRelays ([demoConfig] ++ badPlatformConfig :: [])
      = buildRelays ([demoConfig] ++ []) :=
  ⟨Or.inr ⟨"unsupported platform: twitch", by decide⟩,
   (manager_enabled_invariant defaultConfig [demoConfig] [] badPlatformConfig
      (Or.inr ⟨"unsupported platform: twitch", by decide⟩)).2⟩

/-- Claim C6, counterexample: `Stop()` on a freshly constructed relay that
was never started returns early on the `isRunning` check and does NOT
cancel the relay's private cancellation scope, so "called in any state …
cancels the relay's private cancellation scope" fails in the idle state. -/
theorem stop_idle_does_not_cancel :
    demoIdleRelay.isRunning = false ∧
    demoIdleRelay.Stop.1.cancelled = false ∧
    demoIdleRelay.Stop.1 = demoIdleRelay := by
  decide

/-- Claim C6 (amended): `Stop()` on a running relay — in particular during
`Streaming` with tracked destination processes — kills every tracked
process, empties the process map (`GetStatus().ProcessCount` becomes 0),
clears the running flag (`GetStatus().IsRunning` becomes false) and cancels
the relay's private cancellation scope; on a relay that is not running
(never started, or already stopped — in particular a second `Stop()` call)
it is a no-op. -/
theorem stop_semantics (sr t : StreamRelay) (h : sr.isRunning = true)
    (ht : t.isRunning = false) :
    sr.Stop.2 = sr.processes ∧
    sr.Stop.1.processes = [] ∧
    sr.Stop.1.isRunning = false ∧
    sr.Stop.1.cancelled = true ∧
    sr.Stop.1.GetStatus.processCount = 0 ∧
    sr.Stop.1.GetStatus.isRunning = false ∧
    sr.Stop.1.restartCount = sr.restartCount ∧
    sr.Stop.1.lastError = sr.lastError ∧
    sr.Stop.1.Stop = (sr.Stop.1, []) ∧
    t.Stop = (t, []) := by
  have hs : sr.Stop
      = ({ sr with isRunning := false, cancelled := true, processes := [] },
         sr.processes) := by
    simp [StreamRelay.Stop, h]
  rw [hs]
  refine ⟨rfl, rfl, rfl, rfl, rfl, rfl, rfl, rfl, by simp [StreamRelay.Stop],
    by simp [StreamRelay.Stop, ht]⟩

theorem stop_semantics_witness :
    demoStreamingRelay.isRunning = true ∧
    demoIdleRelay.isRunning = false ∧
    demoStreamingRelay.Stop.2 = ["a"] ∧
    demoStreamingRelay.Stop.1.cancelled = true :=
  ⟨rfl, rfl,
   (stop_semantics demoStreamingRelay demoIdleRelay rfl rfl).1,
   (stop_semantics demoStreamingRelay demoIdleRelay rfl rfl).2.2.2.1⟩

/-- Claim C7: `restartCount` is monotonically non-decreasing across any
sequence of relay operations (`Start`, supervision-loop iterations, `Stop`,
`GetStatus`): no operation ever resets or decreases it. -/
theorem restartCount_monotone (sr : StreamRelay) (ops : List RelayOp) :
    sr.restartCount ≤ (sr.runOps ops).restartCount := by
  induction ops generalizing sr with
  | nil => exact le_rfl
  | cons op rest ih =>
      have hstep : sr.runOps (op :: rest) = (sr.applyOp op).runOps rest := rfl
      rw [hstep]
      exact le_trans (applyOp_restartCount_le sr op) (ih (sr.applyOp op))

/-- Claim C8: if the source reports not-live on every poll of a trace, the
relay never launches a destination process and its state — process map,
`restartCount` and every other status field — is unchanged after the whole
trace. -/
theorem neverLive_no_streaming (sr : StreamRelay)
    (trace : List (SourceObs × Option String))
    (h : ∀ p ∈ trace, p.1.live = false) :
    sr.runIters trace = sr ∧ sr.itersLaunched trace = false := by
  induction trace generalizing sr with
  | nil => exact ⟨rfl, rfl⟩
  | cons p rest ih =>
      obtain ⟨obs, firstErr⟩ := p
      have h1 : obs.live = false := h _ (List.mem_cons_self _ _)
      have hrest : ∀ q ∈ rest, q.1.live = false :=
        fun q hq => h q (List.mem_cons_of_mem _ hq)
      have hstep := startIteration_notLive sr obs firstErr h1
      constructor
      · show ((sr.startIteration obs firstErr).state).runIters rest = sr
        rw [hstep]
        exact (ih sr hrest).1
      · show ((sr.startIteration obs firstErr).launched
            || (sr.startIteration obs firstErr).state.itersLaunched rest)
            = false
        rw [hstep]
        simpa using (ih sr hrest).2

theorem neverLive_no_streaming_witness :
    demoRunningRelay.runIters
        [(⟨false, ""⟩, none), (⟨false, "http://src/index.m3u8"⟩, none)]
      = demoRunningRelay ∧
    demoRunningRelay.itersLaunched
        [(⟨false, ""⟩, none), (⟨false, "http://src/index.m3u8"⟩, none)]
      = false :=
  neverLive_no_streaming demoRunningRelay
    [(⟨false, ""⟩, none), (⟨false, "http://src/index.m3u8"⟩, none)]
    (by decide)

/-- Claim C10: `loadConfig` with an empty path or a path to a file that
does not exist returns the default configuration (interval "30s", verbose
false, no rooms, no relays) with a nil error; `NewRelayManager` then
succeeds with an empty relay map, and only `Run()` surfaces the
missing-file condition as the "no relay configurations found" error. -/
theorem missing_config_defaults (fs : String → FileRead)
    (parseConfig : String → Except String Config) (configFile : String)
    (h : configFile = "" ∨ fs configFile = FileRead.notFound) :
    loadConfig fs parseConfig configFile = .ok defaultConfig ∧
    defaultConfig.interval = "30s" ∧ defaultConfig.verbose = false ∧
    defaultConfig.rooms = [] ∧ defaultConfig.relays = [] ∧
    NewRelayManager fs parseConfig configFile
      = .ok { relays := [], cancelled := false } ∧
    (NewRelayManagerOfConfig defaultConfig).Run.result
      = .error "no relay configurations found" := by
  have hload : loadConfig fs parseConfig configFile = .ok defaultConfig := by
    rcases h with h | h
    · simp [loadConfig, h]
    · by_cases he : configFile = ""
      · simp [loadConfig, he]
      · simp [loadConfig, he, h]
  refine ⟨hload, rfl, rfl, rfl, rfl, ?_, rfl⟩
  simp [NewRelayManager, hload, NewRelayManagerOfConfig, buildRelays,
    defaultConfig]

theorem missing_config_defaults_witness :
    loadConfig emptyFS noParse "conf.json" = .ok defaultConfig ∧
    NewRelayManager emptyFS noParse "conf.json"
      = .ok { relays := [], cancelled := false } :=
  ⟨(missing_config_defaults emptyFS noParse "conf.json" (Or.inr rfl)).1,
   (missing_config_defaults emptyFS noParse "conf.json"
      (Or.inr rfl)).2.2.2.2.2.1⟩
